import Mathlib

/-!
Verification of the realtime indexing store of the ponder repository
(`packages/core/src/indexing-store/realtime.ts`).

The store exposes `find`, `insert`, `update`, `delete` to user event
handlers.  Every operation first validates its table argument with
`checkOnchainTable`, then issues one or more SQL statements against the
user database through drizzle.  We embed:

  * the table argument (`Option Table`, `none` standing for the
    JavaScript `undefined`),
  * rows of a user table with a single primary-key column (`Row`),
  * the semantics of the individual SQL statements the store issues
    (select / insert / insert-on-conflict-do-nothing / native upsert /
    update / delete), modelling the external Postgres database at the
    granularity of whole statements (a statement either succeeds and
    transforms the table or fails and leaves it unchanged),
  * each store operation as a function from the current table contents
    to an `OpOutcome`: the list of SQL statements issued, the value or
    error returned to the handler, and the table contents afterwards.
-/

namespace Ponder

/-- Method tag passed to `checkOnchainTable` in the source. -/
inductive Method where
  | find
  | insert
  | update
  | delete
deriving DecidableEq, Repr

/-- Name of a method as it appears in error messages (`db.find()` etc.). -/
def methodName : Method → String
  | .find => "find"
  | .insert => "insert"
  | .update => "update"
  | .delete => "delete"

/-- Embedding of a drizzle table object: its user-facing name and whether
the `onchain` brand symbol is present on it (`onchain in table`). -/
structure Table where
  name : String
  isOnchain : Bool
deriving DecidableEq, Repr

/-- Typed errors surfaced by the store: `UndefinedTableError`,
`InvalidStoreMethodError`, `RecordNotFoundError` from `common/errors`,
and the unique-constraint violation raised by the database on a
conflicting plain insert. -/
inductive StoreError where
  | undefinedTable (msg : String)
  | invalidStoreMethod (msg : String)
  | recordNotFound (msg : String)
  | uniqueConstraintViolation (msg : String)
deriving DecidableEq, Repr

/-- Message of `UndefinedTableError` in `checkOnchainTable`. -/
def undefinedTableMessage (m : Method) : String :=
  "Table object passed to db." ++ methodName m ++ "() is undefined"

/-- Message of `InvalidStoreMethodError` for the `find` method. -/
def findOffchainMessage (tableName : String) : String :=
  "db.find() can only be used with onchain tables, and '" ++ tableName ++
    "' is an offchain table."

/-- Message of `InvalidStoreMethodError` for the write methods. -/
def writeOffchainMessage (tableName : String) : String :=
  "Indexing functions can only write to onchain tables, and '" ++ tableName ++
    "' is an offchain table."

/-- Message of `RecordNotFoundError` thrown by `update().set(fn)`. -/
def recordNotFoundMessage (tableName : String) : String :=
  "No existing record found in table '" ++ tableName ++ "'"

/-- Message of the database unique-constraint violation. -/
def uniqueViolationMessage : String :=
  "duplicate key value violates unique constraint"

/-- Embedding of `checkOnchainTable`: throw `UndefinedTableError` if the
table object is `undefined`, return if the `onchain` symbol is present,
otherwise throw `InvalidStoreMethodError` with a message that is
specific to `find` versus the write methods. -/
def checkOnchainTable (table : Option Table) (method : Method) :
    Except StoreError Unit :=
  match table with
  | none => .error (.undefinedTable (undefinedTableMessage method))
  | some t =>
    if t.isOnchain then .ok ()
    else
      .error (.invalidStoreMethod
        (if method = Method.find then findOffchainMessage t.name
         else writeOffchainMessage t.name))

/-- Row of a user table: one primary-key column `pk` and one payload
column `value`. -/
structure Row where
  pk : Nat
  value : Int
deriving DecidableEq, Repr

/-- Embedding of `getWhereCondition table key`: the conjunction of
equalities between the primary-key columns of the row and the
corresponding fields of `key` (one column here). -/
def getWhereCondition (key : Nat) (r : Row) : Bool :=
  r.pk == key

/-- Kinds of SQL statement the store issues, recorded as an operation
trace so that theorems can speak about which queries reach the
database. -/
inductive SqlStmt where
  | selectStmt
  | insertStmt
  | insertDoNothingStmt
  | upsertStmt
  | updateStmt
  | deleteStmt
deriving DecidableEq, Repr

/-- Semantics of `SELECT * FROM table WHERE cond`. -/
def sqlSelect (rows : List Row) (cond : Row → Bool) : List Row :=
  rows.filter cond

/-- Semantics of inserting one row: fails with a unique-constraint
violation when a row with the same primary key is already present,
otherwise appends the row. -/
def sqlInsertOne (rows : List Row) (r : Row) : Except StoreError (List Row) :=
  if rows.any (fun x => x.pk == r.pk) then
    .error (.uniqueConstraintViolation uniqueViolationMessage)
  else .ok (rows ++ [r])

/-- Semantics of `INSERT INTO table VALUES (v1, ..., vn)`: one atomic
statement; any primary-key conflict fails the whole statement and the
caller observes the unchanged table. -/
def sqlInsertMany (rows : List Row) (vs : List Row) :
    Except StoreError (List Row) :=
  vs.foldlM sqlInsertOne rows

/-- Semantics of `INSERT ... ON CONFLICT DO NOTHING RETURNING *`:
conflicting rows are skipped; returns the new table contents and the
rows actually inserted. -/
def sqlInsertDoNothing (rows : List Row) (vs : List Row) :
    List Row × List Row :=
  vs.foldl
    (fun acc v =>
      if acc.1.any (fun x => x.pk == v.pk) then acc
      else (acc.1 ++ [v], acc.2 ++ [v]))
    (rows, [])

/-- Semantics of the native upsert
`INSERT ... ON CONFLICT (pk) DO UPDATE SET value = setVal RETURNING *`:
a single statement over the whole batch; each proposed row is inserted
when its key is free and otherwise the existing row's payload is set to
`setVal`.  Returns the new table contents and the affected rows. -/
def sqlUpsert (rows : List Row) (vs : List Row) (setVal : Int) :
    List Row × List Row :=
  vs.foldl
    (fun acc v =>
      if acc.1.any (fun x => x.pk == v.pk) then
        ((acc.1.map fun x =>
            if x.pk == v.pk then { x with value := setVal } else x),
         acc.2 ++ [{ v with value := setVal }])
      else (acc.1 ++ [v], acc.2 ++ [v]))
    (rows, [])

/-- Semantics of `UPDATE table SET value WHERE cond RETURNING *`. -/
def sqlUpdate (rows : List Row) (cond : Row → Bool) (setVal : Int) :
    List Row × List Row :=
  ((rows.map fun r => if cond r then { r with value := setVal } else r),
   (rows.filter cond).map fun r => { r with value := setVal })

/-- Semantics of `DELETE FROM table WHERE cond RETURNING *`: the
remaining rows and the deleted rows. -/
def sqlDelete (rows : List Row) (cond : Row → Bool) :
    List Row × List Row :=
  (rows.filter (fun r => !(cond r)), rows.filter cond)

/-- Decidable equality for `Except`, needed to evaluate store outcomes
on concrete inputs. -/
instance {ε α : Type} [DecidableEq ε] [DecidableEq α] :
    DecidableEq (Except ε α) := fun x y =>
  match x, y with
  | .error e, .error f =>
    if h : e = f then .isTrue (by rw [h])
    else .isFalse (by intro hh; cases hh; exact h rfl)
  | .ok a, .ok b =>
    if h : a = b then .isTrue (by rw [h])
    else .isFalse (by intro hh; cases hh; exact h rfl)
  | .error _, .ok _ => .isFalse (by intro hh; cases hh)
  | .ok _, .error _ => .isFalse (by intro hh; cases hh)

/-- Outcome of one store operation: the SQL statements issued, the
value or error returned to the handler, and the table contents after
the operation (unchanged whenever the operation fails before or at its
only statement). -/
structure OpOutcome (α : Type) where
  trace : List SqlStmt
  result : Except StoreError α
  rows : List Row
deriving DecidableEq, Repr

/-- Embedding of the inner `find` helper: a select with the where
condition for `key`; `res.length === 0 ? null : res[0]`. -/
def findHelper (rows : List Row) (key : Nat) : Option Row :=
  (sqlSelect rows (getWhereCondition key)).head?

/-- Embedding of `indexingStore.find`: validate the table for the
`find` method, then run the select.  On a failed validation no query is
issued. -/
def storeFind (table : Option Table) (key : Nat) (rows : List Row) :
    OpOutcome (Option Row) :=
  match checkOnchainTable table Method.find with
  | .error e => ⟨[], .error e, rows⟩
  | .ok _ => ⟨[.selectStmt], .ok (findHelper rows key), rows⟩

/-- Values argument of `insert(table).values(values)`: a single row
object or an array of rows (`Array.isArray` distinguishes the two). -/
inductive Values where
  | one (r : Row)
  | many (rs : List Row)

/-- Rows denoted by a `Values` argument, as the database receives them. -/
def Values.toList : Values → List Row
  | .one r => [r]
  | .many rs => rs

/-- Argument of `onConflictDoUpdate` and `update().set`: a plain object
of column assignments (`typeof x === "object"`) or a function from the
current row (`typeof x === "function"`). -/
inductive SetClause where
  | obj (v : Int)
  | fn (f : Row → Int)

/-- Embedding of awaiting `insert(table).values(values)` directly (the
`then` member of the returned thenable): a plain
`INSERT ... RETURNING` with no on-conflict clause. -/
def storeInsertThen (table : Option Table) (values : Values)
    (rows : List Row) : OpOutcome (List Row) :=
  match checkOnchainTable table Method.insert with
  | .error e => ⟨[], .error e, rows⟩
  | .ok _ =>
    match sqlInsertMany rows values.toList with
    | .error e => ⟨[.insertStmt], .error e, rows⟩
    | .ok rows2 => ⟨[.insertStmt], .ok values.toList, rows2⟩

/-- Embedding of `insert(table).values(values).onConflictDoNothing()`. -/
def storeInsertDoNothing (table : Option Table) (values : Values)
    (rows : List Row) : OpOutcome (List Row) :=
  match checkOnchainTable table Method.insert with
  | .error e => ⟨[], .error e, rows⟩
  | .ok _ =>
    let res := sqlInsertDoNothing rows values.toList
    ⟨[.insertDoNothingStmt], .ok res.2, res.1⟩

/-- Result of `onConflictDoUpdate`: the object branch returns the
returning-rows of a single statement; the per-row loop over an array
pushes each statement's returning array, yielding a list of lists. -/
inductive InsertReturn where
  | flat (rs : List Row)
  | nested (rss : List (List Row))
deriving DecidableEq, Repr

/-- Embedding of the per-row loop in `onConflictDoUpdate(fn)` when
`values` is an array: for each element in order, `find` by primary key,
then either a plain insert (row absent) or an update with `fn row` (row
present); a statement error aborts the loop with the effects so far
kept (the loop is not wrapped in a transaction). -/
def upsertRowLoop (f : Row → Int) (vs : List Row) (rows : List Row) :
    List SqlStmt × Except StoreError (List (List Row)) × List Row :=
  match vs with
  | [] => ([], .ok [], rows)
  | v :: rest =>
    match findHelper rows v.pk with
    | none =>
      match sqlInsertOne rows v with
      | .error e => ([.selectStmt, .insertStmt], .error e, rows)
      | .ok rows2 =>
        let res := upsertRowLoop f rest rows2
        (.selectStmt :: .insertStmt :: res.1,
         res.2.1.map (fun rss => [v] :: rss), res.2.2)
    | some row =>
      let upd := sqlUpdate rows (getWhereCondition v.pk) (f row)
      let res := upsertRowLoop f rest upd.1
      (.selectStmt :: .updateStmt :: res.1,
       res.2.1.map (fun rss => upd.2 :: rss), res.2.2)

/-- Embedding of `insert(table).values(values).onConflictDoUpdate(u)`.
When `u` is a plain object the store issues one native upsert statement
over the whole values batch.  When `u` is a function and `values` is an
array it runs the per-row find / insert-or-update loop; when `u` is a
function and `values` is a single object it does one find followed by
either an insert or an update. -/
def storeInsertDoUpdate (table : Option Table) (values : Values)
    (u : SetClause) (rows : List Row) : OpOutcome InsertReturn :=
  match checkOnchainTable table Method.insert with
  | .error e => ⟨[], .error e, rows⟩
  | .ok _ =>
    match u with
    | .obj setVal =>
      let res := sqlUpsert rows values.toList setVal
      ⟨[.upsertStmt], .ok (.flat res.2), res.1⟩
    | .fn f =>
      match values with
      | .many vs =>
        let res := upsertRowLoop f vs rows
        ⟨res.1, res.2.1.map InsertReturn.nested, res.2.2⟩
      | .one v =>
        match findHelper rows v.pk with
        | none =>
          match sqlInsertOne rows v with
          | .error e => ⟨[.selectStmt, .insertStmt], .error e, rows⟩
          | .ok rows2 => ⟨[.selectStmt, .insertStmt], .ok (.flat [v]), rows2⟩
        | some row =>
          let upd := sqlUpdate rows (getWhereCondition v.pk) (f row)
          ⟨[.selectStmt, .updateStmt], .ok (.flat upd.2), upd.1⟩

/-- Embedding of `update(table, key).set(values)`: with a function the
store first runs `find` and throws `RecordNotFoundError` when no row
matches, then updates with `values(row)`; with a plain object it issues
the update directly, with no existence check. -/
def storeUpdate (table : Option Table) (key : Nat) (values : SetClause)
    (rows : List Row) : OpOutcome (List Row) :=
  match checkOnchainTable table Method.update with
  | .error e => ⟨[], .error e, rows⟩
  | .ok _ =>
    match values with
    | .fn f =>
      match findHelper rows key with
      | none =>
        ⟨[.selectStmt],
         .error (.recordNotFound
           (recordNotFoundMessage ((table.map Table.name).getD ""))), rows⟩
      | some row =>
        let upd := sqlUpdate rows (getWhereCondition key) (f row)
        ⟨[.selectStmt, .updateStmt], .ok upd.2, upd.1⟩
    | .obj setVal =>
      let upd := sqlUpdate rows (getWhereCondition key) setVal
      ⟨[.updateStmt], .ok upd.2, upd.1⟩

/-- Embedding of `indexingStore.delete`: issue the delete with the key's
where condition and return `deleted.length > 0`. -/
def storeDelete (table : Option Table) (key : Nat) (rows : List Row) :
    OpOutcome Bool :=
  match checkOnchainTable table Method.delete with
  | .error e => ⟨[], .error e, rows⟩
  | .ok _ =>
    let del := sqlDelete rows (getWhereCondition key)
    ⟨[.deleteStmt], .ok (decide (0 < del.2.length)), del.1⟩

/-- Embedding of the thenable object returned by
`insert(table).values(values)`: selecting a conflict policy runs that
variant; awaiting the object itself (`then`) runs the plain insert, and
`catch` and `finally` delegate to `then` (`inner.then(...)` in the
source), so they execute the same plain insert. -/
structure InsertChain where
  doNothing : List Row → OpOutcome (List Row)
  doUpdate : SetClause → List Row → OpOutcome InsertReturn
  thenRun : List Row → OpOutcome (List Row)
  catchRun : List Row → OpOutcome (List Row)
  finallyRun : List Row → OpOutcome (List Row)

/-- Builder produced by `insert(table).values(values)`. -/
def insertBuilder (table : Option Table) (values : Values) : InsertChain where
  doNothing := storeInsertDoNothing table values
  doUpdate := fun u => storeInsertDoUpdate table values u
  thenRun := storeInsertThen table values
  catchRun := storeInsertThen table values
  finallyRun := storeInsertThen table values

/-- Operation of a journal row in the reorg shadow table. -/
inductive JOp where
  | journalInsert
  | journalUpdate
  | journalDelete
deriving DecidableEq, Repr

/-- Row of the shadow journal table of a user table: the operation, the
checkpoint of the event that caused the write, the primary key of the
affected user row, and the previous image of the row (`none` for
inserts). -/
structure JournalRow where
  op : JOp
  checkpoint : Nat
  pk : Nat
  beforeImage : Option Row
deriving DecidableEq, Repr

/-- Live table and its reorg journal for one user table of one
instance. -/
structure InstanceTables where
  userRows : List Row
  reorgRows : List JournalRow
deriving DecidableEq, Repr

/-- Write operation of the store, as seen by the journal mechanism. -/
inductive WriteOp where
  | writeInsert (r : Row)
  | writeUpdate (key : Nat) (v : Int)
  | writeDelete (key : Nat)
deriving Repr

/-- Modelled from the spec: the journal mechanism of component F, whose
implementation lives in the database layer rather than in the indexing
store source.  Per the spec, every write also produces a journal row in
the reorg shadow table carrying the event's checkpoint and, for updates
and deletes, a `before_image` read inside the same transaction; when
the write transaction fails, both the user row and the journal row roll
back atomically.  We model one write transaction as a function that
either returns the new state of both tables or fails with `none`, in
which case neither table changes. -/
def writeTx (cp : Nat) (w : WriteOp) (st : InstanceTables) :
    Option InstanceTables :=
  match w with
  | .writeInsert r =>
    match sqlInsertOne st.userRows r with
    | .error _ => none
    | .ok rows2 =>
      some ⟨rows2, ⟨.journalInsert, cp, r.pk, none⟩ :: st.reorgRows⟩
  | .writeUpdate key v =>
    match findHelper st.userRows key with
    | none => none
    | some old =>
      some ⟨(sqlUpdate st.userRows (getWhereCondition key) v).1,
            ⟨.journalUpdate, cp, key, some old⟩ :: st.reorgRows⟩
  | .writeDelete key =>
    match findHelper st.userRows key with
    | none => none
    | some old =>
      some ⟨(sqlDelete st.userRows (getWhereCondition key)).1,
            ⟨.journalDelete, cp, key, some old⟩ :: st.reorgRows⟩

/-- State of the store's operation queue: operations not yet started in
submission order, operations currently in flight, and finished
operations in completion order.  Operations are identified by
numbers. -/
structure QueueState where
  pending : List Nat
  running : List Nat
  done : List Nat
deriving DecidableEq, Repr

/-- Modelled from the spec: the queue implementation (`createQueue` in
`common/src/queue`) is not part of this tree; the store constructs it
with `concurrency: 1` so that all store operations of a handler run in
order.  A queue with concurrency bound `c` may start the next pending
operation only while fewer than `c` operations are in flight, and may
finish the oldest in-flight operation. -/
inductive QueueStep (c : Nat) : QueueState → QueueState → Prop
  | start (p : Nat) (rest running done : List Nat)
      (h : running.length < c) :
      QueueStep c ⟨p :: rest, running, done⟩ ⟨rest, running ++ [p], done⟩
  | finish (pending : List Nat) (r : Nat) (rest done : List Nat) :
      QueueStep c ⟨pending, r :: rest, done⟩ ⟨pending, rest, done ++ [r]⟩

/-- States the queue can reach from an initial submission list `ops`
with nothing started yet. -/
def QueueReachable (c : Nat) (ops : List Nat) (s : QueueState) : Prop :=
  Relation.ReflTransGen (QueueStep c) ⟨ops, [], []⟩ s

/-! Helper lemmas about the SQL statement semantics. -/

/-- Characterization of a failed lookup: the select for `key` returns no
row exactly when no row of the table has primary key `key`. -/
theorem findHelper_eq_none_iff (rows : List Row) (key : Nat) :
    findHelper rows key = none ↔ ∀ r ∈ rows, r.pk ≠ key := by
  simp [findHelper, sqlSelect, getWhereCondition, List.head?_eq_none_iff,
    List.filter_eq_nil_iff]

/-- Characterization of a successful lookup: the returned row is a row
of the table with the requested primary key. -/
theorem findHelper_some (rows : List Row) (key : Nat) (r : Row)
    (h : findHelper rows key = some r) : r ∈ rows ∧ r.pk = key := by
  unfold findHelper sqlSelect at h
  cases hf : rows.filter (getWhereCondition key) with
  | nil => rw [hf] at h; simp at h
  | cons a t =>
    rw [hf] at h
    simp only [List.head?_cons, Option.some.injEq] at h
    subst h
    have ha : a ∈ rows.filter (getWhereCondition key) := by
      rw [hf]; exact List.mem_cons_self a t
    rcases List.mem_filter.mp ha with ⟨h1, h2⟩
    exact ⟨h1, by simpa [getWhereCondition] using h2⟩

/-- A table with no row for `r.pk` accepts the plain insert of `r`. -/
theorem sqlInsertOne_of_miss (rows : List Row) (r : Row)
    (h : ∀ x ∈ rows, x.pk ≠ r.pk) :
    sqlInsertOne rows r = .ok (rows ++ [r]) := by
  have hany : rows.any (fun x => x.pk == r.pk) = false := by
    simp only [List.any_eq_false]
    intro x hx
    simpa using h x hx
  simp [sqlInsertOne, hany]

/-- A table already holding a row for `r.pk` rejects the plain insert
of `r` with a unique-constraint violation. -/
theorem sqlInsertOne_of_hit (rows : List Row) (r x : Row)
    (hx : x ∈ rows) (hpk : x.pk = r.pk) :
    sqlInsertOne rows r =
      .error (.uniqueConstraintViolation uniqueViolationMessage) := by
  have hany : rows.any (fun y => y.pk == r.pk) = true := by
    simp only [List.any_eq_true]
    exact ⟨x, hx, by simp [hpk]⟩
  simp [sqlInsertOne, hany]

/-- A single-row `INSERT ... VALUES` behaves as inserting that row. -/
theorem sqlInsertMany_one (rows : List Row) (r : Row) :
    sqlInsertMany rows [r] = sqlInsertOne rows r := by
  cases h : sqlInsertOne rows r with
  | error e => simp [sqlInsertMany, List.foldlM, h]
  | ok rows2 => simp [sqlInsertMany, List.foldlM, h]

/-- Mapping a guarded rewrite over rows none of which satisfy the guard
leaves the list unchanged. -/
theorem map_ite_of_none (rows : List Row) (cond : Row → Bool)
    (g : Row → Row) (h : ∀ r ∈ rows, cond r = false) :
    (rows.map fun r => if cond r then g r else r) = rows := by
  induction rows with
  | nil => rfl
  | cons a t ih =>
    simp only [List.map_cons, h a (List.mem_cons_self a t), Bool.false_eq_true,
      if_false, List.cons.injEq, true_and]
    exact ih fun r hr => h r (List.mem_cons_of_mem a hr)

/-- An update whose where-condition matches no row neither changes the
table nor returns any row. -/
theorem sqlUpdate_of_miss (rows : List Row) (key : Nat) (v : Int)
    (h : ∀ r ∈ rows, r.pk ≠ key) :
    sqlUpdate rows (getWhereCondition key) v = (rows, []) := by
  have hcond : ∀ r ∈ rows, getWhereCondition key r = false := by
    intro r hr
    simpa [getWhereCondition] using h r hr
  have hfil : rows.filter (getWhereCondition key) = [] :=
    List.filter_eq_nil_iff.mpr fun r hr => by simp [hcond r hr]
  unfold sqlUpdate
  rw [map_ite_of_none rows _ _ hcond, hfil]
  rfl

/-- Looking up `r.pk` right after appending `r` to a table that had no
row for it returns `r`. -/
theorem findHelper_append_self (rows : List Row) (r : Row)
    (h : ∀ x ∈ rows, x.pk ≠ r.pk) :
    findHelper (rows ++ [r]) r.pk = some r := by
  have hfil : rows.filter (getWhereCondition r.pk) = [] :=
    List.filter_eq_nil_iff.mpr fun x hx => by
      simpa [getWhereCondition] using h x hx
  simp [findHelper, sqlSelect, List.filter_append, hfil, getWhereCondition]

/-- Message distinction: the offchain error message of `find` differs
from the one of the write methods, for every table name. -/
theorem findOffchainMessage_ne_writeOffchainMessage (n : String) :
    findOffchainMessage n ≠ writeOffchainMessage n := by
  intro h
  have hl := congrArg String.length h
  simp only [findOffchainMessage, writeOffchainMessage,
    String.length_append] at hl
  have e1 :
      ("db.find() can only be used with onchain tables, and '" :
        String).length = 53 := rfl
  have e2 :
      ("Indexing functions can only write to onchain tables, and '" :
        String).length = 58 := rfl
  rw [e1, e2] at hl
  omega

/-! Claim theorems. -/

/-- C3: for every store write operation (the plain insert, both
on-conflict variants, update with either argument shape, and delete),
an offchain table argument fails with `InvalidStoreMethodError` and an
undefined table argument fails with `UndefinedTableError`; in both
cases the trace is empty (no database write is performed) and the table
contents are unchanged. -/
theorem write_guard_errors (t : Table) (key : Nat) (v : Values)
    (sv : Int) (f : Row → Int) (rows : List Row)
    (h : t.isOnchain = false) :
    storeInsertThen (some t) v rows =
      ⟨[], .error (.invalidStoreMethod (writeOffchainMessage t.name)), rows⟩
  ∧ storeInsertDoNothing (some t) v rows =
      ⟨[], .error (.invalidStoreMethod (writeOffchainMessage t.name)), rows⟩
  ∧ storeInsertDoUpdate (some t) v (.obj sv) rows =
      ⟨[], .error (.invalidStoreMethod (writeOffchainMessage t.name)), rows⟩
  ∧ storeInsertDoUpdate (some t) v (.fn f) rows =
      ⟨[], .error (.invalidStoreMethod (writeOffchainMessage t.name)), rows⟩
  ∧ storeUpdate (some t) key (.obj sv) rows =
      ⟨[], .error (.invalidStoreMethod (writeOffchainMessage t.name)), rows⟩
  ∧ storeUpdate (some t) key (.fn f) rows =
      ⟨[], .error (.invalidStoreMethod (writeOffchainMessage t.name)), rows⟩
  ∧ storeDelete (some t) key rows =
      ⟨[], .error (.invalidStoreMethod (writeOffchainMessage t.name)), rows⟩
  ∧ storeInsertThen none v rows =
      ⟨[], .error (.undefinedTable (undefinedTableMessage .insert)), rows⟩
  ∧ storeInsertDoNothing none v rows =
      ⟨[], .error (.undefinedTable (undefinedTableMessage .insert)), rows⟩
  ∧ storeInsertDoUpdate none v (.obj sv) rows =
      ⟨[], .error (.undefinedTable (undefinedTableMessage .insert)), rows⟩
  ∧ storeUpdate none key (.obj sv) rows =
      ⟨[], .error (.undefinedTable (undefinedTableMessage .update)), rows⟩
  ∧ storeDelete none key rows =
      ⟨[], .error (.undefinedTable (undefinedTableMessage .delete)), rows⟩ := by
  refine ⟨?_, ?_, ?_, ?_, ?_, ?_, ?_, ?_, ?_, ?_, ?_, ?_⟩ <;>
    simp [storeInsertThen, storeInsertDoNothing, storeInsertDoUpdate,
      storeUpdate, storeDelete, checkOnchainTable, h]

/-- Witness for C3 at a concrete offchain table and input. -/
theorem write_guard_errors_witness :
    storeInsertThen (some ⟨"metadata", false⟩) (.one ⟨1, 0⟩) [] =
      ⟨[], .error (.invalidStoreMethod (writeOffchainMessage "metadata")),
        []⟩ :=
  (write_guard_errors ⟨"metadata", false⟩ 1 (.one ⟨1, 0⟩) 0
    (fun r => r.value) [] rfl).1

/-- C9: the onchain check also guards reads: `find` on an offchain
table fails with `InvalidStoreMethodError` carrying the find-specific
message (different from the write message for every table name), with
an empty trace (no query was issued) and the table unchanged. -/
theorem find_offchain_guard (t : Table) (key : Nat) (rows : List Row)
    (h : t.isOnchain = false) :
    storeFind (some t) key rows =
      ⟨[], .error (.invalidStoreMethod (findOffchainMessage t.name)), rows⟩
  ∧ findOffchainMessage t.name ≠ writeOffchainMessage t.name := by
  constructor
  · simp [storeFind, checkOnchainTable, h]
  · exact findOffchainMessage_ne_writeOffchainMessage t.name

/-- Witness for C9 at a concrete offchain table. -/
theorem find_offchain_guard_witness :
    storeFind (some ⟨"metadata", false⟩) 2 [⟨2, 9⟩] =
      ⟨[], .error (.invalidStoreMethod (findOffchainMessage "metadata")),
        [⟨2, 9⟩]⟩ :=
  (find_offchain_guard ⟨"metadata", false⟩ 2 [⟨2, 9⟩] rfl).1

/-- C7: on an onchain table, `find` returns the result of the
primary-key lookup; the returned row, when present, is a row of the
table whose primary key equals `key`, and `null` is returned exactly
when no row matches. -/
theorem find_semantics (t : Table) (key : Nat) (rows : List Row)
    (h : t.isOnchain = true) :
    (storeFind (some t) key rows).result = .ok (findHelper rows key)
  ∧ (∀ r, findHelper rows key = some r → r ∈ rows ∧ r.pk = key)
  ∧ (findHelper rows key = none ↔ ∀ r ∈ rows, r.pk ≠ key) := by
  refine ⟨?_, ?_, ?_⟩
  · simp [storeFind, checkOnchainTable, h]
  · exact fun r hr => findHelper_some rows key r hr
  · exact findHelper_eq_none_iff rows key

/-- Witness for C7 at a concrete table holding one row. -/
theorem find_semantics_witness :
    (storeFind (some ⟨"account", true⟩) 1 [⟨1, 5⟩]).result =
      .ok (findHelper [⟨1, 5⟩] 1) :=
  (find_semantics ⟨"account", true⟩ 1 [⟨1, 5⟩] rfl).1

/-- C8: on an onchain table, `delete` returns `true` exactly when a row
with the given primary key existed (and `false` exactly when none
matched), removes precisely the matching rows, and leaves the table
unchanged in the `false` case. -/
theorem delete_semantics (t : Table) (key : Nat) (rows : List Row)
    (h : t.isOnchain = true) :
    ((storeDelete (some t) key rows).result = .ok true ↔
      ∃ r ∈ rows, r.pk = key)
  ∧ ((storeDelete (some t) key rows).result = .ok false ↔
      ∀ r ∈ rows, r.pk ≠ key)
  ∧ (storeDelete (some t) key rows).rows =
      rows.filter (fun r => !(r.pk == key))
  ∧ ((∀ r ∈ rows, r.pk ≠ key) →
      (storeDelete (some t) key rows).rows = rows) := by
  have hres : (storeDelete (some t) key rows).result =
      .ok (decide (0 < (rows.filter (getWhereCondition key)).length)) := by
    simp [storeDelete, checkOnchainTable, h, sqlDelete]
  have hmem : 0 < (rows.filter (getWhereCondition key)).length ↔
      ∃ r ∈ rows, r.pk = key := by
    rw [List.length_pos]
    constructor
    · intro hne
      rcases List.exists_mem_of_ne_nil _ hne with ⟨r, hr⟩
      rcases List.mem_filter.mp hr with ⟨h1, h2⟩
      exact ⟨r, h1, by simpa [getWhereCondition] using h2⟩
    · rintro ⟨r, hr, hpk⟩
      intro hnil
      have : r ∈ rows.filter (getWhereCondition key) :=
        List.mem_filter.mpr ⟨hr, by simp [getWhereCondition, hpk]⟩
      rw [hnil] at this
      cases this
  refine ⟨?_, ?_, ?_, ?_⟩
  · rw [hres]
    simpa using hmem
  · rw [hres]
    simp only [Except.ok.injEq, decide_eq_false_iff_not, not_lt,
      Nat.le_zero, List.length_eq_zero, List.filter_eq_nil_iff]
    constructor
    · intro hall r hr
      simpa [getWhereCondition] using hall r hr
    · intro hall r hr
      simp [getWhereCondition, hall r hr]
  · simp [storeDelete, checkOnchainTable, h, sqlDelete, getWhereCondition]
  · intro hall
    have : ∀ r ∈ rows, (!(getWhereCondition key r)) = true := by
      intro r hr
      simp [getWhereCondition, hall r hr]
    simp only [storeDelete, checkOnchainTable, h, if_true, sqlDelete]
    exact List.filter_eq_self.mpr this

/-- Witness for C8: deleting the only row of a concrete table. -/
theorem delete_semantics_witness :
    (storeDelete (some ⟨"account", true⟩) 1 [⟨1, 5⟩]).rows =
      ([⟨1, 5⟩] : List Row).filter (fun r => !(r.pk == 1)) :=
  (delete_semantics ⟨"account", true⟩ 1 [⟨1, 5⟩] rfl).2.2.1

/-- C1 counterexample: `update(table, key).set(values)` with a plain
object and no matching row does not fail — it returns the empty
returning list, and in particular not a `RecordNotFoundError`.  The
existence check only runs when `values` is a function. -/
theorem update_object_miss_counterexample :
    (storeUpdate (some ⟨"account", true⟩) 1 (.obj 5) []).result = .ok []
  ∧ (storeUpdate (some ⟨"account", true⟩) 1 (.obj 5) []).result ≠
      .error (.recordNotFound (recordNotFoundMessage "account")) := by
  constructor
  · rfl
  · decide

/-- C1 as amended: on an onchain table with no row matching `key`,
`update(table, key).set(f)` with a function fails with
`RecordNotFoundError` and leaves the table unchanged, while
`update(table, key).set(obj)` with a plain object succeeds, updates
zero rows and also leaves the table unchanged. -/
theorem update_record_not_found (t : Table) (key : Nat) (f : Row → Int)
    (sv : Int) (rows : List Row) (h : t.isOnchain = true)
    (hmiss : ∀ r ∈ rows, r.pk ≠ key) :
    storeUpdate (some t) key (.fn f) rows =
      ⟨[.selectStmt],
       .error (.recordNotFound (recordNotFoundMessage t.name)), rows⟩
  ∧ storeUpdate (some t) key (.obj sv) rows =
      ⟨[.updateStmt], .ok [], rows⟩ := by
  have hnone : findHelper rows key = none :=
    (findHelper_eq_none_iff rows key).mpr hmiss
  constructor
  · simp [storeUpdate, checkOnchainTable, h, hnone]
  · simp [storeUpdate, checkOnchainTable, h,
      sqlUpdate_of_miss rows key sv hmiss]

/-- Witness for C1 (amended) on a concrete empty table. -/
theorem update_record_not_found_witness :
    storeUpdate (some ⟨"account", true⟩) 1 (.fn fun r => r.value) [] =
      ⟨[.selectStmt],
       .error (.recordNotFound (recordNotFoundMessage "account")), []⟩ :=
  (update_record_not_found ⟨"account", true⟩ 1 (fun r => r.value) 0 []
    rfl (by simp)).1

/-- C6: on an onchain table with no row for `r.pk`, awaiting
`insert(table).values(r)` succeeds returning `[r]`, appends `r` to the
table, and a subsequent `find` on the resulting table returns exactly
the inserted row. -/
theorem insert_then_find_roundtrip (t : Table) (r : Row)
    (rows : List Row) (h : t.isOnchain = true)
    (hfresh : ∀ x ∈ rows, x.pk ≠ r.pk) :
    (storeInsertThen (some t) (.one r) rows).result = .ok [r]
  ∧ (storeInsertThen (some t) (.one r) rows).rows = rows ++ [r]
  ∧ (storeFind (some t) r.pk
      ((storeInsertThen (some t) (.one r) rows).rows)).result =
      .ok (some r) := by
  have hins : sqlInsertMany rows [r] = .ok (rows ++ [r]) := by
    rw [sqlInsertMany_one]
    exact sqlInsertOne_of_miss rows r hfresh
  have hrows : (storeInsertThen (some t) (.one r) rows).rows = rows ++ [r] := by
    simp [storeInsertThen, checkOnchainTable, h, hins, Values.toList]
  refine ⟨?_, hrows, ?_⟩
  · simp [storeInsertThen, checkOnchainTable, h, hins, Values.toList]
  · rw [hrows]
    simp [storeFind, checkOnchainTable, h,
      findHelper_append_self rows r hfresh]

/-- Witness for C6: insert into a concrete one-row table, then find. -/
theorem insert_then_find_roundtrip_witness :
    (storeFind (some ⟨"account", true⟩) 2
      ((storeInsertThen (some ⟨"account", true⟩) (.one ⟨2, 7⟩)
        [⟨1, 5⟩]).rows)).result = .ok (some ⟨2, 7⟩) :=
  (insert_then_find_roundtrip ⟨"account", true⟩ ⟨2, 7⟩ [⟨1, 5⟩] rfl
    (by decide)).2.2

/-- C10: awaiting `insert(table).values(r)` without selecting a
conflict policy runs one plain insert with no on-conflict clause, so a
duplicate primary key raises the unique-constraint violation and
leaves the table unchanged; `catch` and `finally` on the thenable
delegate to the same plain insert. -/
theorem insert_await_plain_duplicate (t : Table) (r x : Row)
    (rows : List Row) (h : t.isOnchain = true) (hx : x ∈ rows)
    (hpk : x.pk = r.pk) :
    (insertBuilder (some t) (.one r)).thenRun rows =
      ⟨[.insertStmt],
       .error (.uniqueConstraintViolation uniqueViolationMessage), rows⟩
  ∧ (insertBuilder (some t) (.one r)).catchRun rows =
      (insertBuilder (some t) (.one r)).thenRun rows
  ∧ (insertBuilder (some t) (.one r)).finallyRun rows =
      (insertBuilder (some t) (.one r)).thenRun rows := by
  have hins : sqlInsertMany rows [r] =
      .error (.uniqueConstraintViolation uniqueViolationMessage) := by
    rw [sqlInsertMany_one]
    exact sqlInsertOne_of_hit rows r x hx hpk
  refine ⟨?_, rfl, rfl⟩
  simp [insertBuilder, storeInsertThen, checkOnchainTable, h, hins,
    Values.toList]

/-- Witness for C10: inserting a duplicate key into a concrete
one-row table through the awaited thenable. -/
theorem insert_await_plain_duplicate_witness :
    (insertBuilder (some ⟨"account", true⟩) (.one ⟨1, 7⟩)).thenRun
        [⟨1, 5⟩] =
      ⟨[.insertStmt],
       .error (.uniqueConstraintViolation uniqueViolationMessage),
       [⟨1, 5⟩]⟩ :=
  (insert_await_plain_duplicate ⟨"account", true⟩ ⟨1, 7⟩ ⟨1, 5⟩
    [⟨1, 5⟩] rfl (by decide) rfl).1

/-- A row whose key the lookup missed is accepted by the plain insert
inside the per-row loop, so the loop's insert branch never fails. -/
theorem sqlInsertOne_of_findHelper_none (rows : List Row) (v : Row)
    (h : findHelper rows v.pk = none) :
    sqlInsertOne rows v = .ok (rows ++ [v]) :=
  sqlInsertOne_of_miss rows v ((findHelper_eq_none_iff rows v.pk).mp h)

/-- Behaviour of the per-row loop of `onConflictDoUpdate(fn)` on an
array: it never fails, issues exactly one find (select) per element and
never a native upsert, and returns one returning-array per element. -/
theorem upsertRowLoop_spec (f : Row → Int) (vs : List Row) :
    ∀ rows : List Row, ∃ tr rss rows2,
      upsertRowLoop f vs rows = (tr, .ok rss, rows2)
    ∧ tr.count .selectStmt = vs.length
    ∧ SqlStmt.upsertStmt ∉ tr
    ∧ rss.length = vs.length := by
  induction vs with
  | nil =>
    intro rows
    exact ⟨[], [], rows, rfl, rfl, by simp, rfl⟩
  | cons v rest ih =>
    intro rows
    cases hfind : findHelper rows v.pk with
    | none =>
      rcases ih (rows ++ [v]) with ⟨tr, rss, rows2, hloop, hcount, hups, hlen⟩
      refine ⟨.selectStmt :: .insertStmt :: tr, [v] :: rss, rows2, ?_, ?_, ?_, ?_⟩
      · simp only [upsertRowLoop, hfind,
          sqlInsertOne_of_findHelper_none rows v hfind, hloop, Except.map]
      · simp [List.count_cons, hcount]
      · simp [hups]
      · simp [hlen]
    | some row =>
      rcases ih ((sqlUpdate rows (getWhereCondition v.pk) (f row)).1) with
        ⟨tr, rss, rows2, hloop, hcount, hups, hlen⟩
      refine ⟨.selectStmt :: .updateStmt :: tr,
        (sqlUpdate rows (getWhereCondition v.pk) (f row)).2 :: rss, rows2,
        ?_, ?_, ?_, ?_⟩
      · simp only [upsertRowLoop, hfind, hloop, Except.map]
      · simp [List.count_cons, hcount]
      · simp [hups]
      · simp [hlen]

/-- C4 counterexample: with an array of values and a plain object as
the `onConflictDoUpdate` argument, the store issues one native upsert
over the whole batch and no per-row find at all — the per-row path only
runs when the argument is a function. -/
theorem onConflictDoUpdate_array_counterexample :
    (storeInsertDoUpdate (some ⟨"account", true⟩)
      (.many [⟨1, 10⟩, ⟨2, 20⟩]) (.obj 5) []).trace = [.upsertStmt]
  ∧ SqlStmt.selectStmt ∉
      (storeInsertDoUpdate (some ⟨"account", true⟩)
        (.many [⟨1, 10⟩, ⟨2, 20⟩]) (.obj 5) []).trace := by
  constructor
  · rfl
  · decide

/-- C4 as amended: `onConflictDoUpdate(u)` on an array of values runs
the per-row find-then-insert-or-update loop exactly when `u` is a
function — one select per element, never a native upsert, one
returning-array per element in order — while a plain object `u` issues
a single native upsert statement over the whole batch. -/
theorem onConflictDoUpdate_fn_per_row (t : Table) (f : Row → Int)
    (vs : List Row) (rows : List Row) (sv : Int)
    (h : t.isOnchain = true) :
    ((storeInsertDoUpdate (some t) (.many vs) (.fn f) rows).trace.count
        .selectStmt = vs.length)
  ∧ SqlStmt.upsertStmt ∉
      (storeInsertDoUpdate (some t) (.many vs) (.fn f) rows).trace
  ∧ (∃ rss, (storeInsertDoUpdate (some t) (.many vs) (.fn f) rows).result =
        .ok (.nested rss) ∧ rss.length = vs.length)
  ∧ (storeInsertDoUpdate (some t) (.many vs) (.obj sv) rows).trace =
      [.upsertStmt] := by
  rcases upsertRowLoop_spec f vs rows with
    ⟨tr, rss, rows2, hloop, hcount, hups, hlen⟩
  have hstore : storeInsertDoUpdate (some t) (.many vs) (.fn f) rows =
      ⟨tr, .ok (.nested rss), rows2⟩ := by
    simp [storeInsertDoUpdate, checkOnchainTable, h, hloop, Except.map]
  refine ⟨?_, ?_, ⟨rss, ?_, hlen⟩, ?_⟩
  · rw [hstore]; exact hcount
  · rw [hstore]; exact hups
  · rw [hstore]
  · simp [storeInsertDoUpdate, checkOnchainTable, h]

/-- Witness for C4 (amended) on a concrete two-element batch against a
table already holding one of the keys. -/
theorem onConflictDoUpdate_fn_per_row_witness :
    ((storeInsertDoUpdate (some ⟨"account", true⟩)
        (.many [⟨1, 10⟩, ⟨2, 20⟩]) (.fn fun r => r.value + 1)
        [⟨1, 0⟩]).trace.count .selectStmt = 2) :=
  (onConflictDoUpdate_fn_per_row ⟨"account", true⟩
    (fun r => r.value + 1) [⟨1, 10⟩, ⟨2, 20⟩] [⟨1, 0⟩] 5 rfl).1

/-- C5: every state the concurrency-1 operation queue can reach from a
submission list `ops` has at most one operation in flight, and the
finished, in-flight and pending operations concatenate back to `ops` in
submission order — operations execute strictly serialized in the order
they were submitted. -/
theorem queue_serializes (ops : List Nat) (s : QueueState)
    (h : QueueReachable 1 ops s) :
    s.running.length ≤ 1 ∧ s.done ++ s.running ++ s.pending = ops := by
  induction h with
  | refl => simp
  | tail hsteps hstep ih =>
    cases hstep with
    | start p rest running done hlt =>
      have hrun : running = [] := by
        cases running with
        | nil => rfl
        | cons a t => simp at hlt
      subst hrun
      refine ⟨by simp, ?_⟩
      have h2 := ih.2
      simp only [List.nil_append, List.append_assoc] at h2 ⊢
      simpa using h2
    | finish pending r rest done =>
      have h1 := ih.1
      have h2 := ih.2
      refine ⟨?_, ?_⟩
      · simp only [List.length_cons] at h1
        simp only []
        omega
      · simp only [List.append_assoc] at h2 ⊢
        simpa using h2

/-- Witness for C5: a concrete reachable state with one operation in
flight after submitting two operations. -/
theorem queue_serializes_witness :
    (QueueState.mk [4] [3] []).running.length ≤ 1 ∧
      (QueueState.mk [4] [3] []).done ++ (QueueState.mk [4] [3] []).running
        ++ (QueueState.mk [4] [3] []).pending = [3, 4] :=
  queue_serializes [3, 4] ⟨[4], [3], []⟩
    (Relation.ReflTransGen.single (QueueStep.start 3 [4] [] [] (by decide)))

/-- C2: whenever a write transaction commits, the reorg journal gains
exactly one row placed atomically with the user-table change: it
carries the event's checkpoint, and for updates and deletes the
`before_image` read inside the same transaction (`none` for inserts),
while the user table changes by exactly the shadowed write; a failed
transaction returns `none`, so neither the user row nor the journal
row persists. -/
theorem write_journal_atomic (cp : Nat) (w : WriteOp)
    (st st' : InstanceTables) (h : writeTx cp w st = some st') :
    ∃ jr, st'.reorgRows = jr :: st.reorgRows ∧ jr.checkpoint = cp ∧
      ((∃ r, w = .writeInsert r ∧ jr.op = .journalInsert ∧ jr.pk = r.pk ∧
          jr.beforeImage = none ∧ st'.userRows = st.userRows ++ [r])
       ∨ (∃ key v old, w = .writeUpdate key v ∧ jr.op = .journalUpdate ∧
          jr.pk = key ∧ findHelper st.userRows key = some old ∧
          jr.beforeImage = some old ∧
          st'.userRows = (sqlUpdate st.userRows (getWhereCondition key) v).1)
       ∨ (∃ key old, w = .writeDelete key ∧ jr.op = .journalDelete ∧
          jr.pk = key ∧ findHelper st.userRows key = some old ∧
          jr.beforeImage = some old ∧
          st'.userRows = (sqlDelete st.userRows (getWhereCondition key)).1)) := by
  cases w with
  | writeInsert r =>
    simp only [writeTx] at h
    cases hins : sqlInsertOne st.userRows r with
    | error e => rw [hins] at h; cases h
    | ok rows2 =>
      rw [hins] at h
      injection h with h
      subst h
      have hrows2 : rows2 = st.userRows ++ [r] := by
        unfold sqlInsertOne at hins
        by_cases hany : st.userRows.any (fun x => x.pk == r.pk)
        · rw [if_pos hany] at hins; cases hins
        · rw [if_neg hany] at hins; injection hins with hins; exact hins.symm
      exact ⟨⟨.journalInsert, cp, r.pk, none⟩, rfl, rfl,
        .inl ⟨r, rfl, rfl, rfl, rfl, hrows2⟩⟩
  | writeUpdate key v =>
    simp only [writeTx] at h
    cases hfind : findHelper st.userRows key with
    | none => rw [hfind] at h; cases h
    | some old =>
      rw [hfind] at h
      injection h with h
      subst h
      exact ⟨⟨.journalUpdate, cp, key, some old⟩, rfl, rfl,
        .inr (.inl ⟨key, v, old, rfl, rfl, rfl, hfind, rfl, rfl⟩)⟩
  | writeDelete key =>
    simp only [writeTx] at h
    cases hfind : findHelper st.userRows key with
    | none => rw [hfind] at h; cases h
    | some old =>
      rw [hfind] at h
      injection h with h
      subst h
      exact ⟨⟨.journalDelete, cp, key, some old⟩, rfl, rfl,
        .inr (.inr ⟨key, old, rfl, rfl, rfl, hfind, rfl, rfl⟩)⟩

/-- Witness for C2: a concrete committed insert transaction produces
its journal row. -/
theorem write_journal_atomic_witness :
    ∃ jr, (InstanceTables.mk [⟨1, 2⟩]
        [⟨.journalInsert, 7, 1, none⟩]).reorgRows =
      jr :: (InstanceTables.mk ([] : List Row)
        ([] : List JournalRow)).reorgRows ∧
      jr.checkpoint = 7 ∧
      ((∃ r, WriteOp.writeInsert (⟨1, 2⟩ : Row) = .writeInsert r ∧
          jr.op = .journalInsert ∧ jr.pk = r.pk ∧ jr.beforeImage = none ∧
          (InstanceTables.mk [⟨1, 2⟩]
            [⟨.journalInsert, 7, 1, none⟩]).userRows =
            (InstanceTables.mk ([] : List Row)
              ([] : List JournalRow)).userRows ++ [r])
       ∨ (∃ key v old, WriteOp.writeInsert (⟨1, 2⟩ : Row) =
            .writeUpdate key v ∧ jr.op = .journalUpdate ∧ jr.pk = key ∧
          findHelper (InstanceTables.mk ([] : List Row)
            ([] : List JournalRow)).userRows key = some old ∧
          jr.beforeImage = some old ∧
          (InstanceTables.mk [⟨1, 2⟩]
            [⟨.journalInsert, 7, 1, none⟩]).userRows =
            (sqlUpdate (InstanceTables.mk ([] : List Row)
              ([] : List JournalRow)).userRows
              (getWhereCondition key) v).1)
       ∨ (∃ key old, WriteOp.writeInsert (⟨1, 2⟩ : Row) =
            .writeDelete key ∧ jr.op = .journalDelete ∧ jr.pk = key ∧
          findHelper (InstanceTables.mk ([] : List Row)
            ([] : List JournalRow)).userRows key = some old ∧
          jr.beforeImage = some old ∧
          (InstanceTables.mk [⟨1, 2⟩]
            [⟨.journalInsert, 7, 1, none⟩]).userRows =
            (sqlDelete (InstanceTables.mk ([] : List Row)
              ([] : List JournalRow)).userRows
              (getWhereCondition key)).1)) :=
  write_journal_atomic 7 (.writeInsert ⟨1, 2⟩) ⟨[], []⟩
    ⟨[⟨1, 2⟩], [⟨.journalInsert, 7, 1, none⟩]⟩ rfl

end Ponder
